import Mathlib

/-! Verification development for the DineLine phone-ordering agent.

The tool-execution engine, the router and the conversation loop are
embedded from `agent.py` (the variant-based catalog iteration); the audio
relay loops and the speech-synthesis step are embedded from `main.py`.
The catalog data (`menu.json`) is not part of the sources, so every
definition is parameterised by the catalog; `demoMenu` below is concrete
test data used only to instantiate closed statements.  Prices are
modelled as rationals, and the textual rendering of a price (Python
`str(float)`) is abstracted as a parameter `ps : ℚ → String` of the
message-building functions.  The reasoning engine is an opaque oracle:
its replies are inputs of the loop functions. -/

/-- Python `str.lower` applied characterwise (ASCII-adequate model). -/
def lowerChars (s : String) : List Char := s.data.map Char.toLower

/-- Lowercased string (Python `s.lower()`). -/
def lowerStr (s : String) : String := String.mk (lowerChars s)

/-- `leadsWith n h` is true when the char list `h` begins with `n`. -/
def leadsWith : List Char → List Char → Bool
  | [], _ => true
  | _ :: _, [] => false
  | a :: as, b :: bs => a == b && leadsWith as bs

/-- `occursIn n h` is Python's substring test `n in h` on char lists. -/
def occursIn (n : List Char) : List Char → Bool
  | [] => leadsWith n []
  | c :: t => leadsWith n (c :: t) || occursIn n t

/-- Python `needle in hay` on strings. -/
def containsStr (hay needle : String) : Bool := occursIn needle.data hay.data

/-- Python `sep.join(parts)`. -/
def joinSep (sep : String) : List String → String
  | [] => ""
  | [x] => x
  | x :: y :: xs => x ++ sep ++ joinSep sep (y :: xs)

/-- A priced, independently identified option of a menu item
(`menu.json` variant record, as read by `agent.py`). -/
structure Variant where
  variant_id : String
  vname : String
  price : ℚ
deriving DecidableEq

/-- A catalog item as read by `agent.py` from `menu.json`.  `spice_level`
is optional because the source reads it with `item.get("spice_level", "none")`. -/
structure MenuItem where
  iname : String
  idescription : String
  tags : List String
  allergens : List String
  is_vegetarian : Bool
  spice_level : Option String
  variants : List Variant
deriving DecidableEq

/-- One cart entry, as appended by `add_to_cart` in `agent.py`. -/
structure CartLine where
  variant_id : String
  lname : String
  quantity : ℤ
  unit_price : ℚ
  line_total : ℚ
deriving DecidableEq

/-- A tool invocation request.  The source reads the arguments out of a
dict `tool_call["args"]`; the arguments each bounded action reads are
modelled as fields (`query` for search, `variant_id`/`quantity` for add,
`reason` for handoff). -/
structure ToolCall where
  tname : String
  tid : String
  query : String
  variant_id : String
  quantity : ℤ
  reason : String
deriving DecidableEq

/-- Conversation history message: system instruction, user utterance,
assistant reply (with its requested tool calls), or tool result
(content, tool_call_id). -/
inductive Msg where
  | system : String → Msg
  | human : String → Msg
  | ai : String → List ToolCall → Msg
  | tool : String → String → Msg
deriving DecidableEq

/-- The `tool_calls` attribute of a message: assistant messages carry
their requested actions, every other message kind has none. -/
def toolCallsOf : Msg → List ToolCall
  | Msg.ai _ tcs => tcs
  | _ => []

/-- The `tool_call_id` of a tool-result message (empty for other kinds). -/
def toolMsgId : Msg → String
  | Msg.tool _ i => i
  | _ => ""

/-- `AgentState` from `agent.py`: conversation history, cart, running
total, handoff flag. -/
structure AgentState where
  messages : List Msg
  cart : List CartLine
  order_total : ℚ
  requires_handoff : Bool
deriving DecidableEq

/-- `state["messages"][-1]`; the graph only reads it on non-empty
histories, a default system message stands in for the out-of-range case. -/
def lastMsg (s : AgentState) : Msg := s.messages.getLast?.getD (Msg.system "")

/-- The searchable text `agent.py` builds for one item:
`f"{name} {description} {' '.join(tags)} {' '.join(allergens)}"`. -/
def searchableText (item : MenuItem) : String :=
  item.iname ++ " " ++ item.idescription ++ " " ++ joinSep " " item.tags ++ " " ++
    joinSep " " item.allergens

/-- The source's match test: lowercased query occurs in the lowercased
searchable text of the item. -/
def matchesItem (query : String) (item : MenuItem) : Bool :=
  occursIn (lowerChars query) (lowerChars (searchableText item))

/-- One variant entry of a search result line:
`f"{v['name']} (ID: {v['variant_id']}, ${v['price']})"`. -/
def variantLine (ps : ℚ → String) (v : Variant) : String :=
  v.vname ++ " (ID: " ++ v.variant_id ++ ", $" ++ ps v.price ++ ")"

/-- The vegetarian marker of a result line. -/
def vegTag (item : MenuItem) : String :=
  if item.is_vegetarian then "Vegetarian" else "Not Vegetarian"

/-- One formatted search result line for a matched item. -/
def resultLine (ps : ℚ → String) (item : MenuItem) : String :=
  "- " ++ item.iname ++ " (" ++ vegTag item ++ ", Spice: " ++ item.spice_level.getD "none" ++
    "): " ++ item.idescription ++ " -> Options: [" ++
    joinSep " | " (item.variants.map (variantLine ps)) ++ "]"

/-- The matched items, in catalog order. -/
def searchHits (menu : List MenuItem) (query : String) : List MenuItem :=
  menu.filter (matchesItem query)

/-- The reply text of the search action (`agent.py` lines 91-112). -/
def searchReply (ps : ℚ → String) (menu : List MenuItem) (query : String) : String :=
  let hits := searchHits menu query
  if hits = [] then "System: No items found matching \x27" ++ lowerStr query ++ "\x27."
  else "System: Available items:\n" ++ joinSep "\n" (hits.map (resultLine ps))

/-- The deep search of `add_to_cart`: first item (in catalog order) owning
a variant with the requested identifier, together with that variant. -/
def findVariant (menu : List MenuItem) (vid : String) : Option (Variant × String) :=
  match menu with
  | [] => none
  | item :: rest =>
    match item.variants.find? (fun v => v.variant_id == vid) with
    | some v => some (v, item.iname)
    | none => findVariant rest vid

/-- Result of running the tool loop body: produced tool-result messages
(in execution order) and the updated cart, total and handoff flag. -/
structure ExecOut where
  msgs : List Msg
  cart : List CartLine
  order_total : ℚ
  requires_handoff : Bool
deriving DecidableEq

/-- The `for tool_call in last_message.tool_calls` loop of
`execute_tools` (`agent.py` lines 86-151), one recursive step per
request.  A request whose name is none of the three bounded actions falls
through the if/elif chain: no message, no state change. -/
def execCalls (ps : ℚ → String) (menu : List MenuItem) :
    List ToolCall → List CartLine → ℚ → Bool → ExecOut
  | [], cart, total, ho => ⟨[], cart, total, ho⟩
  | tc :: rest, cart, total, ho =>
    if tc.tname = "request_human_handoff" then
      let r := execCalls ps menu rest cart total true
      ⟨Msg.tool "System: Handoff initiated." tc.tid :: r.msgs, r.cart, r.order_total,
        r.requires_handoff⟩
    else if tc.tname = "search_menu" then
      let r := execCalls ps menu rest cart total ho
      ⟨Msg.tool (searchReply ps menu tc.query) tc.tid :: r.msgs, r.cart, r.order_total,
        r.requires_handoff⟩
    else if tc.tname = "add_to_cart" then
      match findVariant menu tc.variant_id with
      | none =>
        let r := execCalls ps menu rest cart total ho
        ⟨Msg.tool ("Error: Invalid variant_id \x27" ++ tc.variant_id ++
            "\x27. You must search the menu first to find the correct ID.") tc.tid :: r.msgs,
          r.cart, r.order_total, r.requires_handoff⟩
      | some (v, itemName) =>
        let lt := v.price * (tc.quantity : ℚ)
        let line : CartLine :=
          ⟨tc.variant_id, itemName ++ " - " ++ v.vname, tc.quantity, v.price, lt⟩
        let r := execCalls ps menu rest (cart ++ [line]) (total + lt) ho
        ⟨Msg.tool ("Added " ++ toString tc.quantity ++ " " ++ itemName ++ " (" ++ v.vname ++
            "). Total: $" ++ ps (total + lt)) tc.tid :: r.msgs, r.cart, r.order_total,
          r.requires_handoff⟩
    else
      execCalls ps menu rest cart total ho

/-- The `execute_tools` graph node: runs the tool loop over the last
message's requests; the produced tool messages are appended to history
(`add_messages`), cart/total/handoff are replaced by the new values. -/
def execute_tools (ps : ℚ → String) (menu : List MenuItem) (s : AgentState) : AgentState :=
  let r := execCalls ps menu (toolCallsOf (lastMsg s)) s.cart s.order_total s.requires_handoff
  ⟨s.messages ++ r.msgs, r.cart, r.order_total, r.requires_handoff⟩

/-- The `agent` graph node: the reasoning engine is opaque, so its reply
is an input; the node only appends the reply to history and touches no
other state field. -/
def call_model (reply : Msg) (s : AgentState) : AgentState :=
  ⟨s.messages ++ [reply], s.cart, s.order_total, s.requires_handoff⟩

/-- Routing outcome of the conditional edge after the agent node. -/
inductive Route where
  | toTools : Route
  | toEnd : Route
deriving DecidableEq

/-- `router` (`agent.py` lines 155-158): to the tool node when the last
message carries tool calls, otherwise end of turn. -/
def router (s : AgentState) : Route :=
  if toolCallsOf (lastMsg s) ≠ [] then Route.toTools else Route.toEnd

/-- One conversation turn of the compiled graph, driven by the stream of
oracle replies: append the next reply, route; on tool calls execute them
and re-invoke the engine, otherwise the turn completes surfacing the
reply.  `none` models the engine running out (provider failure). -/
def runTurn (ps : ℚ → String) (menu : List MenuItem) :
    List Msg → AgentState → Option (AgentState × Msg)
  | [], _ => none
  | r :: rest, s =>
    let s1 := call_model r s
    match router s1 with
    | Route.toEnd => some (s1, r)
    | Route.toTools => runTurn ps menu rest (execute_tools ps menu s1)

/-- A sequence of engine-reply/tool-execution rounds: each batch of tool
calls arrives as an assistant reply and is executed by the tool node. -/
def applyBatches (ps : ℚ → String) (menu : List MenuItem) :
    List (List ToolCall) → AgentState → AgentState
  | [], s => s
  | b :: rest, s =>
    applyBatches ps menu rest (execute_tools ps menu (call_model (Msg.ai "" b) s))

/-- Executing one handoff request (an assistant reply holding exactly the
handoff call, followed by the tool node). -/
def doHandoff (ps : ℚ → String) (menu : List MenuItem) (reason i : String)
    (s : AgentState) : AgentState :=
  execute_tools ps menu (call_model (Msg.ai "" [⟨"request_human_handoff", i, "", "", 0, reason⟩]) s)

/-- Sum over the cart of unit price times quantity. -/
def cartSum (cart : List CartLine) : ℚ :=
  (cart.map (fun l => l.unit_price * (l.quantity : ℚ))).sum

/-- A request name the if/elif chain of the tool loop recognises. -/
def isRecognized (tc : ToolCall) : Bool :=
  tc.tname = "request_human_handoff" ∨ tc.tname = "search_menu" ∨ tc.tname = "add_to_cart"

/-- One ElevenLabs text-to-speech request. -/
structure SynthRequest where
  voice : String
  text : String
deriving DecidableEq

/-- `generate_tts` (`main.py` lines 144-153): builds one synthesis request
from the given text and posts it unconditionally — the source has no guard
for empty or whitespace-only text.  Embedded as the list of provider
requests one invocation issues. -/
def generate_tts_requests (voice text : String) : List SynthRequest := [⟨voice, text⟩]

/-- A transcription event as read by `listen_to_deepgram`. -/
structure DgEvent where
  is_final : Bool
  speech_final : Bool
  transcript : String
deriving DecidableEq

/-- Observable action of the transcript-consuming relay loop: synthesize
and send reply audio, or update the call with the transfer TwiML. -/
inductive RelayAct where
  | speak : String → RelayAct
  | transfer : String → RelayAct
deriving DecidableEq

/-- `listen_to_deepgram` (`main.py` lines 226-262), sequentially: for each
finalized non-empty transcript run one graph turn (the graph is the
opaque `graphTurn`, returning the new state and the reply text); on
handoff issue the transfer and break, otherwise speak the reply and
continue.  Returns the emitted actions, the final state, and whether the
loop broke out via handoff. -/
def listenToDeepgram (graphTurn : AgentState → String → AgentState × String) (staff : String) :
    List DgEvent → AgentState → List RelayAct × AgentState × Bool
  | [], s => ([], s, false)
  | e :: rest, s =>
    if e.is_final = true ∧ e.speech_final = true ∧ e.transcript ≠ "" then
      let r := graphTurn s e.transcript
      if r.1.requires_handoff = true then
        ([RelayAct.transfer ("<Response><Say>Connecting you to staff.</Say><Dial>" ++ staff ++
          "</Dial></Response>")], r.1, true)
      else
        let k := listenToDeepgram graphTurn staff rest r.1
        (RelayAct.speak r.2 :: k.1, k.2)
    else
      listenToDeepgram graphTurn staff rest s

/-- A Twilio media-stream event as read by `listen_to_twilio`. -/
inductive TwEvent where
  | start : String → String → TwEvent
  | media : String → TwEvent
  | stop : TwEvent
deriving DecidableEq

/-- Observable action of the inbound relay loop: speak the fixed greeting
(on the start event, after priming the graph) or forward decoded caller
audio to the transcription socket. -/
inductive TwAct where
  | speak : String → TwAct
  | forward : String → TwAct
deriving DecidableEq

/-- The fixed greeting of `main.py`. -/
def greetingText : String := "Welcome to DineLine Pizza! What would you like to order today?"

/-- `listen_to_twilio` (`main.py` lines 190-223), sequentially: start
primes the session and speaks the greeting, media forwards audio bytes to
the transcription source, stop breaks the loop.  Returns the emitted
actions and whether the loop terminated via the stop event; nothing in
its body reads the handoff flag. -/
def listenToTwilio : List TwEvent → List TwAct × Bool
  | [] => ([], false)
  | TwEvent.stop :: _ => ([], true)
  | TwEvent.start _ _ :: rest =>
    let r := listenToTwilio rest
    (TwAct.speak greetingText :: r.1, r.2)
  | TwEvent.media p :: rest =>
    let r := listenToTwilio rest
    (TwAct.forward p :: r.1, r.2)

/-- Transfer test on a relay action. -/
def isTransfer : RelayAct → Bool
  | RelayAct.transfer _ => true
  | _ => false

/-- Number of transfer actions a run emitted. -/
def countTransfers (acts : List RelayAct) : ℕ := (acts.filter isTransfer).length

/-- Concrete catalog data used only to instantiate closed statements
(`menu.json` is not among the sources). -/
def demoMenu : List MenuItem :=
  [⟨"Pepperoni Pizza", "Classic pie with pepperoni", ["pizza", "meat"], ["gluten", "dairy"],
     false, some "mild",
     [⟨"pep_small", "Small", 10⟩, ⟨"pep_large", "Large", 12⟩]⟩,
   ⟨"Coke", "Chilled soda can", ["drink", "soda"], [], true, none, [⟨"coke_can", "Can", 2⟩]⟩]

/-- Price rendering used to instantiate closed statements. -/
def demoShow : ℚ → String := fun q => toString q.num

/-- Field-wise reading of the claimed match condition, following the
claim's words: the query is a case-insensitive substring of the item's
name, of its description, of one of its tags, or of one of its allergens
(to be compared with the source's `matchesItem`, which tests the
space-separated concatenation of those fields). -/
def specFieldwiseMatch (query : String) (item : MenuItem) : Bool :=
  occursIn (lowerChars query) (lowerChars item.iname) ||
  occursIn (lowerChars query) (lowerChars item.idescription) ||
  item.tags.any (fun t => occursIn (lowerChars query) (lowerChars t)) ||
  item.allergens.any (fun t => occursIn (lowerChars query) (lowerChars t))

/-! Helper lemmas about the substring machinery. -/

theorem leadsWith_iff (n h : List Char) : leadsWith n h = true ↔ ∃ t, h = n ++ t := by
  induction n generalizing h with
  | nil => simp [leadsWith]
  | cons a as ih =>
    cases h with
    | nil => simp [leadsWith]
    | cons b bs =>
      simp only [leadsWith, Bool.and_eq_true, beq_iff_eq, ih, List.cons_append, List.cons.injEq]
      constructor
      · rintro ⟨rfl, t, rfl⟩
        exact ⟨t, rfl, rfl⟩
      · rintro ⟨t, rfl, rfl⟩
        exact ⟨rfl, t, rfl⟩

theorem occursIn_iff (n h : List Char) : occursIn n h = true ↔ ∃ p t, h = p ++ n ++ t := by
  induction h with
  | nil =>
    simp only [occursIn, leadsWith_iff]
    constructor
    · rintro ⟨t, ht⟩
      rcases List.append_eq_nil.1 ht.symm with ⟨rfl, rfl⟩
      exact ⟨[], [], rfl⟩
    · rintro ⟨p, t, ht⟩
      rcases List.append_eq_nil.1 ht.symm with ⟨h1, rfl⟩
      rcases List.append_eq_nil.1 h1 with ⟨rfl, rfl⟩
      exact ⟨[], rfl⟩
  | cons c t ih =>
    simp only [occursIn, Bool.or_eq_true, leadsWith_iff, ih]
    constructor
    · rintro (⟨t', ht⟩ | ⟨p, t', rfl⟩)
      · exact ⟨[], t', by simpa using ht⟩
      · exact ⟨c :: p, t', by simp⟩
    · rintro ⟨p, t', ht⟩
      cases p with
      | nil => exact Or.inl ⟨t', by simpa using ht⟩
      | cons x xs =>
        rcases List.cons.injEq .. ▸ ht with ⟨rfl, rfl⟩
        exact Or.inr ⟨xs, t', by simp⟩

theorem strData_append (a b : String) : (a ++ b).data = a.data ++ b.data := rfl

theorem lowerChars_append (a b : String) : lowerChars (a ++ b) = lowerChars a ++ lowerChars b := by
  simp [lowerChars, strData_append]

theorem occursIn_embed (n X g P T : List Char) (hg : g = P ++ X ++ T)
    (h : occursIn n X = true) : occursIn n g = true := by
  rcases (occursIn_iff n X).1 h with ⟨p, t, rfl⟩
  exact (occursIn_iff n g).2 ⟨P ++ p, t ++ T, by simp [hg]⟩

theorem joinSep_mem_decomp (sep : String) (l : List String) (s : String) (hs : s ∈ l) :
    ∃ p t, (joinSep sep l).data = p ++ s.data ++ t := by
  induction l with
  | nil => cases hs
  | cons x xs ih =>
    cases xs with
    | nil =>
      rcases List.mem_singleton.1 hs with rfl
      exact ⟨[], [], by simp [joinSep]⟩
    | cons y ys =>
      rcases List.mem_cons.1 hs with rfl | hs'
      · exact ⟨[], (sep ++ joinSep sep (y :: ys)).data, by simp [joinSep, strData_append]⟩
      · rcases ih hs' with ⟨p, t, hp⟩
        exact ⟨(x ++ sep).data ++ p, t, by simp [joinSep, strData_append, hp]⟩

/-! Helper lemmas about the tool-execution loop. -/

theorem cartSum_append (c1 c2 : List CartLine) :
    cartSum (c1 ++ c2) = cartSum c1 + cartSum c2 := by
  simp [cartSum]

theorem execCalls_inv (ps : ℚ → String) (menu : List MenuItem) (calls : List ToolCall)
    (cart : List CartLine) (total : ℚ) (ho : Bool)
    (h1 : total = cartSum cart)
    (h2 : ∀ l ∈ cart, l.line_total = l.unit_price * (l.quantity : ℚ)) :
    (execCalls ps menu calls cart total ho).order_total =
      cartSum (execCalls ps menu calls cart total ho).cart ∧
    ∀ l ∈ (execCalls ps menu calls cart total ho).cart,
      l.line_total = l.unit_price * (l.quantity : ℚ) := by
  induction calls generalizing cart total ho with
  | nil => exact ⟨h1, h2⟩
  | cons tc rest ih =>
    by_cases hh : tc.tname = "request_human_handoff"
    · simp only [execCalls, if_pos hh]
      exact ih cart total true h1 h2
    · by_cases hs : tc.tname = "search_menu"
      · simp only [execCalls, if_neg hh, if_pos hs]
        exact ih cart total ho h1 h2
      · by_cases ha : tc.tname = "add_to_cart"
        · rcases hfv : findVariant menu tc.variant_id with _ | ⟨v, itemName⟩
          · simp only [execCalls, if_neg hh, if_neg hs, if_pos ha, hfv]
            exact ih cart total ho h1 h2
          · simp only [execCalls, if_neg hh, if_neg hs, if_pos ha, hfv]
            refine ih _ _ ho ?_ ?_
            · simp [cartSum_append, cartSum, h1]
            · intro l hl
              rcases List.mem_append.1 hl with hl | hl
              · exact h2 l hl
              · rcases List.mem_singleton.1 hl with rfl
                rfl
        · simp only [execCalls, if_neg hh, if_neg hs, if_neg ha]
          exact ih cart total ho h1 h2

theorem execCalls_handoff_mono (ps : ℚ → String) (menu : List MenuItem) (calls : List ToolCall)
    (cart : List CartLine) (total : ℚ) :
    (execCalls ps menu calls cart total true).requires_handoff = true := by
  induction calls generalizing cart total with
  | nil => rfl
  | cons tc rest ih =>
    by_cases hh : tc.tname = "request_human_handoff"
    · simp only [execCalls, if_pos hh]
      exact ih _ _
    · by_cases hs : tc.tname = "search_menu"
      · simp only [execCalls, if_neg hh, if_pos hs]
        exact ih _ _
      · by_cases ha : tc.tname = "add_to_cart"
        · rcases hfv : findVariant menu tc.variant_id with _ | ⟨v, itemName⟩
          · simp only [execCalls, if_neg hh, if_neg hs, if_pos ha, hfv]
            exact ih _ _
          · simp only [execCalls, if_neg hh, if_neg hs, if_pos ha, hfv]
            exact ih _ _
        · simp only [execCalls, if_neg hh, if_neg hs, if_neg ha]
          exact ih _ _

theorem execCalls_msg_ids (ps : ℚ → String) (menu : List MenuItem) (calls : List ToolCall)
    (cart : List CartLine) (total : ℚ) (ho : Bool) :
    (execCalls ps menu calls cart total ho).msgs.map toolMsgId =
      (calls.filter isRecognized).map ToolCall.tid := by
  induction calls generalizing cart total ho with
  | nil => rfl
  | cons tc rest ih =>
    by_cases hh : tc.tname = "request_human_handoff"
    · have hr : isRecognized tc = true := by simp [isRecognized, hh]
      simp only [execCalls, if_pos hh, List.filter_cons, hr, if_pos]
      simp [toolMsgId, ih]
    · by_cases hs : tc.tname = "search_menu"
      · have hr : isRecognized tc = true := by simp [isRecognized, hs]
        simp only [execCalls, if_neg hh, if_pos hs, List.filter_cons, hr, if_pos]
        simp [toolMsgId, ih]
      · by_cases ha : tc.tname = "add_to_cart"
        · have hr : isRecognized tc = true := by simp [isRecognized, ha]
          rcases hfv : findVariant menu tc.variant_id with _ | ⟨v, itemName⟩
          · simp only [execCalls, if_neg hh, if_neg hs, if_pos ha, hfv, List.filter_cons, hr,
              if_pos]
            simp [toolMsgId, ih]
          · simp only [execCalls, if_neg hh, if_neg hs, if_pos ha, hfv, List.filter_cons, hr,
              if_pos]
            simp [toolMsgId, ih]
        · have hr : isRecognized tc = false := by simp [isRecognized, hh, hs, ha]
          simp only [execCalls, if_neg hh, if_neg hs, if_neg ha, List.filter_cons, hr]
          simp [ih]

theorem lastMsg_call_model (r : Msg) (s : AgentState) : lastMsg (call_model r s) = r := by
  simp [lastMsg, call_model]

theorem doHandoff_eq (ps : ℚ → String) (menu : List MenuItem) (reason i : String)
    (s : AgentState) :
    doHandoff ps menu reason i s =
      ⟨s.messages ++ [Msg.ai "" [⟨"request_human_handoff", i, "", "", 0, reason⟩],
        Msg.tool "System: Handoff initiated." i], s.cart, s.order_total, true⟩ := by
  have h := lastMsg_call_model (Msg.ai "" [⟨"request_human_handoff", i, "", "", 0, reason⟩]) s
  simp only [doHandoff, execute_tools, h, toolCallsOf]
  simp [execCalls, call_model]

/-! Helper lemmas about the conversation loop and relay loops. -/

theorem router_toTools_iff (s : AgentState) :
    router s = Route.toTools ↔ toolCallsOf (lastMsg s) ≠ [] := by
  by_cases h : toolCallsOf (lastMsg s) = [] <;> simp [router, h]

theorem router_toEnd_iff (s : AgentState) :
    router s = Route.toEnd ↔ toolCallsOf (lastMsg s) = [] := by
  by_cases h : toolCallsOf (lastMsg s) = [] <;> simp [router, h]

theorem runTurn_surfaced (ps : ℚ → String) (menu : List MenuItem) (replies : List Msg)
    (s : AgentState) (out : AgentState × Msg)
    (h : runTurn ps menu replies s = some out) :
    toolCallsOf out.2 = [] ∧ lastMsg out.1 = out.2 := by
  induction replies generalizing s with
  | nil => simp [runTurn] at h
  | cons r rest ih =>
    simp only [runTurn] at h
    split at h
    · rename_i heq
      cases h
      refine ⟨?_, lastMsg_call_model r s⟩
      have := (router_toEnd_iff (call_model r s)).1 heq
      simpa [lastMsg_call_model] using this
    · rename_i heq
      exact ih _ h

theorem countTransfers_cons_speak (x : String) (l : List RelayAct) :
    countTransfers (RelayAct.speak x :: l) = countTransfers l := by
  simp [countTransfers, isTransfer]

theorem listenToDeepgram_transfer_spec (gt : AgentState → String → AgentState × String)
    (staff : String) (events : List DgEvent) (s : AgentState) :
    ((listenToDeepgram gt staff events s).2.2 = true →
      ∃ pre tw, (listenToDeepgram gt staff events s).1 = pre ++ [RelayAct.transfer tw] ∧
        countTransfers (listenToDeepgram gt staff events s).1 = 1 ∧
        ∀ a ∈ pre, ∃ txt, a = RelayAct.speak txt) ∧
    ((listenToDeepgram gt staff events s).2.2 = false →
      countTransfers (listenToDeepgram gt staff events s).1 = 0) := by
  induction events generalizing s with
  | nil => simp [listenToDeepgram, countTransfers]
  | cons e rest ih =>
    by_cases hf : e.is_final = true ∧ e.speech_final = true ∧ e.transcript ≠ ""
    · by_cases hh : (gt s e.transcript).1.requires_handoff = true
      · simp only [listenToDeepgram, if_pos hf, if_pos hh]
        constructor
        · intro _
          refine ⟨[], "<Response><Say>Connecting you to staff.</Say><Dial>" ++ staff ++
            "</Dial></Response>", by simp, by simp [countTransfers, isTransfer], by simp⟩
        · intro hb
          simp at hb
      · simp only [listenToDeepgram, if_pos hf, if_neg hh]
        rcases ih ((gt s e.transcript).1) with ⟨ihT, ihF⟩
        constructor
        · intro hb
          rcases ihT hb with ⟨pre, tw, hacts, hcount, hpre⟩
          refine ⟨RelayAct.speak (gt s e.transcript).2 :: pre, tw, by simp [hacts], ?_, ?_⟩
          · simpa [countTransfers_cons_speak, hacts] using hcount
          · intro a ha
            rcases List.mem_cons.1 ha with rfl | ha
            · exact ⟨_, rfl⟩
            · exact hpre a ha
        · intro hb
          simpa [countTransfers_cons_speak] using ihF hb
    · simp only [listenToDeepgram, if_neg hf]
      exact ih s

theorem listenToTwilio_stop_iff (evs : List TwEvent) :
    (listenToTwilio evs).2 = true ↔ TwEvent.stop ∈ evs := by
  induction evs with
  | nil => simp [listenToTwilio]
  | cons e rest ih =>
    cases e with
    | stop => simp [listenToTwilio]
    | start a b => simpa [listenToTwilio] using ih
    | media p => simpa [listenToTwilio] using ih

/-! Helper lemmas about the search action. -/

theorem occursIn_append_right (n b a : List Char) (h : occursIn n b = true) :
    occursIn n (a ++ b) = true := by
  rcases (occursIn_iff n b).1 h with ⟨p, t, rfl⟩
  exact (occursIn_iff n (a ++ (p ++ n ++ t))).2 ⟨a ++ p, t, by simp⟩

theorem occursIn_append_left (n a b : List Char) (h : occursIn n a = true) :
    occursIn n (a ++ b) = true := by
  rcases (occursIn_iff n a).1 h with ⟨p, t, rfl⟩
  exact (occursIn_iff n (p ++ n ++ t ++ b)).2 ⟨p, t ++ b, by simp⟩

theorem lowerChars_searchableText (item : MenuItem) :
    lowerChars (searchableText item) =
      lowerChars item.iname ++ (lowerChars " " ++ (lowerChars item.idescription ++
        (lowerChars " " ++ (lowerChars (joinSep " " item.tags) ++
          (lowerChars " " ++ lowerChars (joinSep " " item.allergens)))))) := by
  simp [searchableText, lowerChars_append]

theorem lowerChars_joinSep_mem (sep : String) (l : List String) (t : String) (ht : t ∈ l) :
    ∃ p q, lowerChars (joinSep sep l) = p ++ lowerChars t ++ q := by
  rcases joinSep_mem_decomp sep l t ht with ⟨p, q, hp⟩
  exact ⟨p.map Char.toLower, q.map Char.toLower, by simp [lowerChars, hp]⟩

theorem specFieldwiseMatch_implies_matchesItem (query : String) (item : MenuItem)
    (h : specFieldwiseMatch query item = true) : matchesItem query item = true := by
  simp only [specFieldwiseMatch, Bool.or_eq_true, List.any_eq_true] at h
  unfold matchesItem
  rw [lowerChars_searchableText]
  rcases h with ((hn | hd) | ⟨t, ht, hq⟩) | ⟨t, ht, hq⟩
  · exact occursIn_append_left _ _ _ hn
  · exact occursIn_append_right _ _ _ (occursIn_append_right _ _ _
      (occursIn_append_left _ _ _ hd))
  · have htag : occursIn (lowerChars query) (lowerChars (joinSep " " item.tags)) = true := by
      rcases lowerChars_joinSep_mem " " item.tags t ht with ⟨p, q, hp⟩
      rw [hp]
      exact occursIn_append_left _ _ _ (occursIn_append_right _ _ _ hq)
    exact occursIn_append_right _ _ _ (occursIn_append_right _ _ _
      (occursIn_append_right _ _ _ (occursIn_append_right _ _ _
        (occursIn_append_left _ _ _ htag))))
  · have hall : occursIn (lowerChars query) (lowerChars (joinSep " " item.allergens)) = true := by
      rcases lowerChars_joinSep_mem " " item.allergens t ht with ⟨p, q, hp⟩
      rw [hp]
      exact occursIn_append_left _ _ _ (occursIn_append_right _ _ _ hq)
    exact occursIn_append_right _ _ _ (occursIn_append_right _ _ _
      (occursIn_append_right _ _ _ (occursIn_append_right _ _ _
        (occursIn_append_right _ _ _ (occursIn_append_right _ _ _ hall)))))

theorem resultLine_contains_variantLine (ps : ℚ → String) (item : MenuItem) (v : Variant)
    (hv : v ∈ item.variants) :
    containsStr (resultLine ps item) (variantLine ps v) = true := by
  have hmem : variantLine ps v ∈ item.variants.map (variantLine ps) :=
    List.mem_map_of_mem _ hv
  rcases joinSep_mem_decomp " | " (item.variants.map (variantLine ps)) _ hmem with ⟨p, t, hp⟩
  unfold containsStr
  apply (occursIn_iff _ _).2
  refine ⟨("- " ++ item.iname ++ " (" ++ vegTag item ++ ", Spice: " ++
    item.spice_level.getD "none" ++ "): " ++ item.idescription ++ " -> Options: [").data ++ p,
    t ++ "]".data, ?_⟩
  simp [resultLine, strData_append, hp]

theorem searchReply_contains_resultLine (ps : ℚ → String) (menu : List MenuItem)
    (query : String) (item : MenuItem) (hm : item ∈ menu)
    (hq : matchesItem query item = true) :
    containsStr (searchReply ps menu query) (resultLine ps item) = true := by
  have hhit : item ∈ searchHits menu query := List.mem_filter.2 ⟨hm, hq⟩
  have hline : resultLine ps item ∈ (searchHits menu query).map (resultLine ps) :=
    List.mem_map_of_mem _ hhit
  rcases joinSep_mem_decomp "\n" ((searchHits menu query).map (resultLine ps)) _ hline with
    ⟨p, t, hp⟩
  have hne : searchHits menu query ≠ [] := List.ne_nil_of_mem hhit
  simp only [searchReply, containsStr, if_neg hne]
  apply (occursIn_iff _ _).2
  exact ⟨"System: Available items:\n".data ++ p, t, by simp [strData_append, hp]⟩

theorem searchReply_no_hits (ps : ℚ → String) (menu : List MenuItem) (query : String)
    (h : searchHits menu query = []) :
    searchReply ps menu query =
      "System: No items found matching \x27" ++ lowerStr query ++ "\x27." := by
  simp [searchReply, h]

theorem searchReply_ne_empty_of_no_hits (ps : ℚ → String) (menu : List MenuItem)
    (query : String) (h : searchHits menu query = []) : searchReply ps menu query ≠ "" := by
  rw [searchReply_no_hits ps menu query h]
  intro he
  have hd := congrArg String.data he
  simp only [strData_append] at hd
  rcases List.append_eq_nil.1 hd with ⟨h1, _⟩
  rcases List.append_eq_nil.1 h1 with ⟨h2, _⟩
  have : ("System: No items found matching \x27" : String).data ≠ [] := by decide
  exact this h2

/-! State-level bridging lemmas. -/

theorem execute_tools_inv (ps : ℚ → String) (menu : List MenuItem) (s : AgentState)
    (h1 : s.order_total = cartSum s.cart)
    (h2 : ∀ l ∈ s.cart, l.line_total = l.unit_price * (l.quantity : ℚ)) :
    (execute_tools ps menu s).order_total = cartSum (execute_tools ps menu s).cart ∧
    ∀ l ∈ (execute_tools ps menu s).cart, l.line_total = l.unit_price * (l.quantity : ℚ) := by
  unfold execute_tools
  exact execCalls_inv ps menu _ s.cart s.order_total s.requires_handoff h1 h2

theorem applyBatches_inv (ps : ℚ → String) (menu : List MenuItem)
    (batches : List (List ToolCall)) (s : AgentState)
    (h1 : s.order_total = cartSum s.cart)
    (h2 : ∀ l ∈ s.cart, l.line_total = l.unit_price * (l.quantity : ℚ)) :
    (applyBatches ps menu batches s).order_total =
      cartSum (applyBatches ps menu batches s).cart ∧
    ∀ l ∈ (applyBatches ps menu batches s).cart,
      l.line_total = l.unit_price * (l.quantity : ℚ) := by
  induction batches generalizing s with
  | nil => exact ⟨h1, h2⟩
  | cons b rest ih =>
    simp only [applyBatches]
    exact ih (execute_tools ps menu (call_model (Msg.ai "" b) s))
      (execute_tools_inv ps menu (call_model (Msg.ai "" b) s)
        (by simpa [call_model] using h1) (by simpa [call_model] using h2)).1
      (execute_tools_inv ps menu (call_model (Msg.ai "" b) s)
        (by simpa [call_model] using h1) (by simpa [call_model] using h2)).2

/-! The claims. -/

/-- C1: starting from an OrderState that is empty with total 0, after any
sequence of tool-execution rounds (in particular after every sequence of
successful add actions) the order total equals the sum over all cart
lines of unit price times quantity, and every appended cart line's
line_total equals its unit_price times its quantity. -/
theorem C1_total_is_cart_sum (ps : ℚ → String) (menu : List MenuItem)
    (batches : List (List ToolCall)) (msgs : List Msg) (ho : Bool) :
    (applyBatches ps menu batches ⟨msgs, [], 0, ho⟩).order_total =
      cartSum (applyBatches ps menu batches ⟨msgs, [], 0, ho⟩).cart ∧
    ∀ l ∈ (applyBatches ps menu batches ⟨msgs, [], 0, ho⟩).cart,
      l.line_total = l.unit_price * (l.quantity : ℚ) :=
  applyBatches_inv ps menu batches ⟨msgs, [], 0, ho⟩ (by simp [cartSum]) (by simp)

/-- C1 witness: two concrete add rounds on the demo catalog. -/
theorem C1_total_is_cart_sum_witness :
    (applyBatches demoShow demoMenu
        [[⟨"add_to_cart", "1", "", "pep_small", 2, ""⟩],
         [⟨"add_to_cart", "2", "", "coke_can", 1, ""⟩]] ⟨[], [], 0, false⟩).order_total =
      cartSum (applyBatches demoShow demoMenu
        [[⟨"add_to_cart", "1", "", "pep_small", 2, ""⟩],
         [⟨"add_to_cart", "2", "", "coke_can", 1, ""⟩]] ⟨[], [], 0, false⟩).cart ∧
    ∀ l ∈ (applyBatches demoShow demoMenu
        [[⟨"add_to_cart", "1", "", "pep_small", 2, ""⟩],
         [⟨"add_to_cart", "2", "", "coke_can", 1, ""⟩]] ⟨[], [], 0, false⟩).cart,
      l.line_total = l.unit_price * (l.quantity : ℚ) :=
  C1_total_is_cart_sum demoShow demoMenu
    [[⟨"add_to_cart", "1", "", "pep_small", 2, ""⟩],
     [⟨"add_to_cart", "2", "", "coke_can", 1, ""⟩]] [] false

/-- C2 (the code refutes the claim): an add action whose variant resolves
but whose quantity is 0 is executed without any validation — the engine
appends a cart line with quantity 0 and returns a plain confirmation, not
an InvalidQuantity result. -/
theorem C2_quantity_not_validated :
    execute_tools demoShow demoMenu
        (call_model (Msg.ai "" [⟨"add_to_cart", "1", "", "pep_small", 0, ""⟩])
          ⟨[], [], 0, false⟩) =
      ⟨[Msg.ai "" [⟨"add_to_cart", "1", "", "pep_small", 0, ""⟩],
        Msg.tool "Added 0 Pepperoni Pizza (Small). Total: $0" "1"],
       [⟨"pep_small", "Pepperoni Pizza - Small", 0, 10, 0⟩], 0, false⟩ := by
  have hl := lastMsg_call_model (Msg.ai "" [⟨"add_to_cart", "1", "", "pep_small", 0, ""⟩])
    (⟨[], [], 0, false⟩ : AgentState)
  have hfv : findVariant demoMenu "pep_small" =
      some (⟨"pep_small", "Small", 10⟩, "Pepperoni Pizza") := rfl
  simp only [execute_tools, hl, toolCallsOf]
  simp only [execCalls, hfv, call_model]
  norm_num [demoShow]
  refine ⟨rfl, rfl, rfl, rfl⟩

/-- C3: an add action whose variant identifier is not found in the catalog
appends exactly one InvalidReference-style error result and leaves the
cart, the order total and the handoff flag unchanged. -/
theorem C3_unknown_variant_preserves_state (ps : ℚ → String) (menu : List MenuItem)
    (s : AgentState) (vid cid : String) (qty : ℤ)
    (h : findVariant menu vid = none) :
    (execute_tools ps menu
        (call_model (Msg.ai "" [⟨"add_to_cart", cid, "", vid, qty, ""⟩]) s)).cart = s.cart ∧
    (execute_tools ps menu
        (call_model (Msg.ai "" [⟨"add_to_cart", cid, "", vid, qty, ""⟩]) s)).order_total =
      s.order_total ∧
    (execute_tools ps menu
        (call_model (Msg.ai "" [⟨"add_to_cart", cid, "", vid, qty, ""⟩]) s)).requires_handoff =
      s.requires_handoff ∧
    (execute_tools ps menu
        (call_model (Msg.ai "" [⟨"add_to_cart", cid, "", vid, qty, ""⟩]) s)).messages =
      s.messages ++ [Msg.ai "" [⟨"add_to_cart", cid, "", vid, qty, ""⟩],
        Msg.tool ("Error: Invalid variant_id \x27" ++ vid ++
          "\x27. You must search the menu first to find the correct ID.") cid] := by
  have hl := lastMsg_call_model (Msg.ai "" [⟨"add_to_cart", cid, "", vid, qty, ""⟩]) s
  simp only [execute_tools, hl, toolCallsOf]
  simp [execCalls, h, call_model]

/-- C3 witness: unknown identifier on the demo catalog. -/
theorem C3_unknown_variant_preserves_state_witness :
    (execute_tools demoShow demoMenu
        (call_model (Msg.ai "" [⟨"add_to_cart", "9", "", "bogus", 3, ""⟩])
          ⟨[], [], 0, false⟩)).cart = (⟨[], [], 0, false⟩ : AgentState).cart ∧
    (execute_tools demoShow demoMenu
        (call_model (Msg.ai "" [⟨"add_to_cart", "9", "", "bogus", 3, ""⟩])
          ⟨[], [], 0, false⟩)).order_total = (⟨[], [], 0, false⟩ : AgentState).order_total ∧
    (execute_tools demoShow demoMenu
        (call_model (Msg.ai "" [⟨"add_to_cart", "9", "", "bogus", 3, ""⟩])
          ⟨[], [], 0, false⟩)).requires_handoff =
      (⟨[], [], 0, false⟩ : AgentState).requires_handoff ∧
    (execute_tools demoShow demoMenu
        (call_model (Msg.ai "" [⟨"add_to_cart", "9", "", "bogus", 3, ""⟩])
          ⟨[], [], 0, false⟩)).messages =
      (⟨[], [], 0, false⟩ : AgentState).messages ++
        [Msg.ai "" [⟨"add_to_cart", "9", "", "bogus", 3, ""⟩],
         Msg.tool ("Error: Invalid variant_id \x27" ++ "bogus" ++
           "\x27. You must search the menu first to find the correct ID.") "9"] :=
  C3_unknown_variant_preserves_state demoShow demoMenu ⟨[], [], 0, false⟩ "bogus" "9" 3
    (by decide)

/-- C4 counterexample: the query "pizza classic" spans the boundary
between the item's name and its description — the source's search matches
the item although the query is not a substring of any single field
(name, description, a tag, or an allergen). -/
theorem C4_cross_field_match_counterexample :
    matchesItem "pizza classic"
        ⟨"Pepperoni Pizza", "Classic pie with pepperoni", ["pizza", "meat"], ["gluten", "dairy"],
          false, some "mild", [⟨"pep_small", "Small", 10⟩, ⟨"pep_large", "Large", 12⟩]⟩ = true ∧
    specFieldwiseMatch "pizza classic"
        ⟨"Pepperoni Pizza", "Classic pie with pepperoni", ["pizza", "meat"], ["gluten", "dairy"],
          false, some "mild", [⟨"pep_small", "Small", 10⟩, ⟨"pep_large", "Large", 12⟩]⟩ =
      false := by
  decide

/-- C4 (amended): the search action matches an item exactly when the
lowercased query occurs in the lowercased space-separated concatenation
of the item's name, description, tags and allergens (a substring of any
single field matches, and a match may also span field boundaries);
every matched catalog item's result line appears in the reply and carries
each variant's rendered entry (name, identifier and price); and a query
matching zero items yields the fixed non-empty no-results text. -/
theorem C4_search_semantics (ps : ℚ → String) (menu : List MenuItem) (query : String)
    (item : MenuItem) (v : Variant) :
    (matchesItem query item = true ↔
      ∃ p t, lowerChars (searchableText item) = p ++ lowerChars query ++ t) ∧
    (specFieldwiseMatch query item = true → matchesItem query item = true) ∧
    (item ∈ menu → matchesItem query item = true →
      containsStr (searchReply ps menu query) (resultLine ps item) = true) ∧
    (v ∈ item.variants → containsStr (resultLine ps item) (variantLine ps v) = true) ∧
    (searchHits menu query = [] →
      searchReply ps menu query =
        "System: No items found matching \x27" ++ lowerStr query ++ "\x27." ∧
      searchReply ps menu query ≠ "") :=
  ⟨occursIn_iff (lowerChars query) (lowerChars (searchableText item)),
   specFieldwiseMatch_implies_matchesItem query item,
   fun hm hq => searchReply_contains_resultLine ps menu query item hm hq,
   fun hv => resultLine_contains_variantLine ps item v hv,
   fun h => ⟨searchReply_no_hits ps menu query h,
     searchReply_ne_empty_of_no_hits ps menu query h⟩⟩

/-- C4 witness: the query "meat" (a tag of the demo pizza) matches, its
result line appears in the reply, and the line carries the small
variant's entry. -/
theorem C4_search_semantics_witness :
    containsStr (searchReply demoShow demoMenu "meat")
      (resultLine demoShow ⟨"Pepperoni Pizza", "Classic pie with pepperoni", ["pizza", "meat"],
        ["gluten", "dairy"], false, some "mild",
        [⟨"pep_small", "Small", 10⟩, ⟨"pep_large", "Large", 12⟩]⟩) = true ∧
    containsStr
      (resultLine demoShow ⟨"Pepperoni Pizza", "Classic pie with pepperoni", ["pizza", "meat"],
        ["gluten", "dairy"], false, some "mild",
        [⟨"pep_small", "Small", 10⟩, ⟨"pep_large", "Large", 12⟩]⟩)
      (variantLine demoShow ⟨"pep_small", "Small", 10⟩) = true :=
  ⟨(C4_search_semantics demoShow demoMenu "meat"
      ⟨"Pepperoni Pizza", "Classic pie with pepperoni", ["pizza", "meat"],
        ["gluten", "dairy"], false, some "mild",
        [⟨"pep_small", "Small", 10⟩, ⟨"pep_large", "Large", 12⟩]⟩
      ⟨"pep_small", "Small", 10⟩).2.2.1
      (by unfold demoMenu; exact List.mem_cons_self _ _) (by decide),
   (C4_search_semantics demoShow demoMenu "meat"
      ⟨"Pepperoni Pizza", "Classic pie with pepperoni", ["pizza", "meat"],
        ["gluten", "dairy"], false, some "mild",
        [⟨"pep_small", "Small", 10⟩, ⟨"pep_large", "Large", 12⟩]⟩
      ⟨"pep_small", "Small", 10⟩).2.2.2.1
      (List.mem_cons_self _ _)⟩

/-- C5: the handoff action sets the flag true, leaves cart and total
untouched, and executing it a second time yields the same cart, total and
flag as executing it once. -/
theorem C5_handoff_idempotent (ps : ℚ → String) (menu : List MenuItem) (s : AgentState)
    (r1 r2 i1 i2 : String) :
    (doHandoff ps menu r1 i1 s).cart = s.cart ∧
    (doHandoff ps menu r1 i1 s).order_total = s.order_total ∧
    (doHandoff ps menu r1 i1 s).requires_handoff = true ∧
    (doHandoff ps menu r2 i2 (doHandoff ps menu r1 i1 s)).cart =
      (doHandoff ps menu r1 i1 s).cart ∧
    (doHandoff ps menu r2 i2 (doHandoff ps menu r1 i1 s)).order_total =
      (doHandoff ps menu r1 i1 s).order_total ∧
    (doHandoff ps menu r2 i2 (doHandoff ps menu r1 i1 s)).requires_handoff =
      (doHandoff ps menu r1 i1 s).requires_handoff := by
  simp [doHandoff_eq]

/-- C6: the handoff flag is monotonic — from any state with the flag set,
both graph nodes (the reasoning step with an arbitrary reply, and the
tool-execution step with whatever tool calls the last message carries)
leave it set. -/
theorem C6_handoff_monotone (ps : ℚ → String) (menu : List MenuItem) (s : AgentState)
    (reply : Msg) (h : s.requires_handoff = true) :
    (call_model reply s).requires_handoff = true ∧
    (execute_tools ps menu s).requires_handoff = true := by
  constructor
  · simpa [call_model] using h
  · have hproj : (execute_tools ps menu s).requires_handoff =
        (execCalls ps menu (toolCallsOf (lastMsg s)) s.cart s.order_total
          s.requires_handoff).requires_handoff := rfl
    rw [hproj, h]
    exact execCalls_handoff_mono ps menu _ s.cart s.order_total

/-- C6 witness: a concrete state with the flag already set. -/
theorem C6_handoff_monotone_witness :
    (call_model (Msg.human "hi") ⟨[], [], 0, true⟩).requires_handoff = true ∧
    (execute_tools demoShow demoMenu ⟨[], [], 0, true⟩).requires_handoff = true :=
  C6_handoff_monotone demoShow demoMenu ⟨[], [], 0, true⟩ (Msg.human "hi") rfl

/-- C7 counterexample: a reply requesting one action with an unrecognized
name is routed to tool execution, but the execution loop appends zero
result messages for that one requested action. -/
theorem C7_unrecognized_request_counterexample :
    router ⟨[Msg.ai "" [⟨"cancel_order", "1", "", "", 0, ""⟩]], [], 0, false⟩ = Route.toTools ∧
    (execute_tools demoShow demoMenu
        ⟨[Msg.ai "" [⟨"cancel_order", "1", "", "", 0, ""⟩]], [], 0, false⟩).messages =
      [Msg.ai "" [⟨"cancel_order", "1", "", "", 0, ""⟩]] := by
  decide

/-- C7 (amended): the machine routes to tool execution exactly when the
reply carries at least one action request and completes the turn
otherwise; the execution loop produces exactly one result message per
recognized action (search, add, handoff), in request order and keyed by
the request's id, while unrecognized requests produce none; and the turn
loop surfaces a reply exactly when that reply carries no action
requests. -/
theorem C7_routing_and_dispatch (ps : ℚ → String) (menu : List MenuItem) :
    (∀ s : AgentState, router s = Route.toTools ↔ toolCallsOf (lastMsg s) ≠ []) ∧
    (∀ s : AgentState, router s = Route.toEnd ↔ toolCallsOf (lastMsg s) = []) ∧
    (∀ (calls : List ToolCall) (cart : List CartLine) (total : ℚ) (ho : Bool),
      (execCalls ps menu calls cart total ho).msgs.map toolMsgId =
        (calls.filter isRecognized).map ToolCall.tid) ∧
    (∀ (replies : List Msg) (s : AgentState) (out : AgentState × Msg),
      runTurn ps menu replies s = some out → toolCallsOf out.2 = [] ∧ lastMsg out.1 = out.2) :=
  ⟨router_toTools_iff, router_toEnd_iff,
   fun calls cart total ho => execCalls_msg_ids ps menu calls cart total ho,
   fun replies s out h => runTurn_surfaced ps menu replies s out h⟩

/-- C7 witness: a tool-free reply completes the turn and is surfaced. -/
theorem C7_routing_and_dispatch_witness :
    toolCallsOf (Msg.ai "All done!" []) = [] ∧
    lastMsg (⟨[Msg.human "hi", Msg.ai "All done!" []], [], 0, false⟩ : AgentState) =
      Msg.ai "All done!" [] :=
  (C7_routing_and_dispatch demoShow demoMenu).2.2.2 [Msg.ai "All done!" []]
    ⟨[Msg.human "hi"], [], 0, false⟩
    (⟨[Msg.human "hi", Msg.ai "All done!" []], [], 0, false⟩, Msg.ai "All done!" []) rfl

/-- C8 counterexample: a handoff turn makes the transcript-consuming loop
transfer and break, but the inbound audio loop's termination is driven
solely by its own stop event — given a stream without a stop event it
runs to the end of the stream still live, so the handoff does not
terminate both loops. -/
theorem C8_inbound_loop_not_terminated_counterexample :
    (listenToDeepgram (fun st _ => (⟨st.messages, st.cart, st.order_total, true⟩, "ok")) "555"
        [⟨true, true, "manager"⟩] ⟨[], [], 0, false⟩).2.2 = true ∧
    countTransfers (listenToDeepgram
        (fun st _ => (⟨st.messages, st.cart, st.order_total, true⟩, "ok")) "555"
        [⟨true, true, "manager"⟩] ⟨[], [], 0, false⟩).1 = 1 ∧
    (listenToTwilio [TwEvent.media "frame1", TwEvent.media "frame2"]).2 = false := by
  decide

/-- C8 (amended): when a turn ends with the handoff flag true the
transcript-consuming relay loop issues exactly one transfer action, emits
it last (every earlier action is reply speech, and no reply audio for
that or any later turn follows it) and terminates; without a handoff no
transfer is ever issued; and the inbound audio loop terminates via its
stop event exactly when its stream contains one — not as a consequence of
the handoff. -/
theorem C8_handoff_transfer (gt : AgentState → String → AgentState × String)
    (staff : String) (events : List DgEvent) (s : AgentState) (twEvents : List TwEvent) :
    ((listenToDeepgram gt staff events s).2.2 = true →
      countTransfers (listenToDeepgram gt staff events s).1 = 1 ∧
      ∃ pre tw, (listenToDeepgram gt staff events s).1 = pre ++ [RelayAct.transfer tw] ∧
        ∀ a ∈ pre, ∃ txt, a = RelayAct.speak txt) ∧
    ((listenToDeepgram gt staff events s).2.2 = false →
      countTransfers (listenToDeepgram gt staff events s).1 = 0) ∧
    ((listenToTwilio twEvents).2 = true ↔ TwEvent.stop ∈ twEvents) := by
  rcases listenToDeepgram_transfer_spec gt staff events s with ⟨hT, hF⟩
  refine ⟨fun hb => ?_, hF, listenToTwilio_stop_iff twEvents⟩
  rcases hT hb with ⟨pre, tw, hacts, hcount, hpre⟩
  exact ⟨hcount, pre, tw, hacts, hpre⟩

/-- C8 witness: a handoff on the first of two finalized transcripts emits
the transfer as the only action and stops the loop. -/
theorem C8_handoff_transfer_witness :
    countTransfers (listenToDeepgram
        (fun st _ => (⟨st.messages, st.cart, st.order_total, true⟩, "sure")) "0199"
        [⟨true, true, "human please"⟩, ⟨true, true, "more"⟩] ⟨[], [], 0, false⟩).1 = 1 ∧
    ∃ pre tw, (listenToDeepgram
        (fun st _ => (⟨st.messages, st.cart, st.order_total, true⟩, "sure")) "0199"
        [⟨true, true, "human please"⟩, ⟨true, true, "more"⟩] ⟨[], [], 0, false⟩).1 =
      pre ++ [RelayAct.transfer tw] ∧ ∀ a ∈ pre, ∃ txt, a = RelayAct.speak txt :=
  (C8_handoff_transfer (fun st _ => (⟨st.messages, st.cart, st.order_total, true⟩, "sure"))
    "0199" [⟨true, true, "human please"⟩, ⟨true, true, "more"⟩] ⟨[], [], 0, false⟩ []).1 rfl

/-- C9 (the code refutes the claim): generate_tts issues a synthesis
request even for empty or whitespace-only text, and the relay loop speaks
the reply unconditionally — a turn whose reply text is empty produces a
speak action carrying the empty text instead of short-circuiting. -/
theorem C9_no_empty_text_guard :
    generate_tts_requests "voice1" "" = [⟨"voice1", ""⟩] ∧
    generate_tts_requests "voice1" "   " = [⟨"voice1", "   "⟩] ∧
    (listenToDeepgram (fun st _ => (st, "")) "555" [⟨true, true, "hello"⟩]
        ⟨[], [], 0, false⟩).1 = [RelayAct.speak ""] := by
  decide

/-- C10: a tool request whose name is none of the three bounded actions is
silently skipped by the execution loop — no tool-result message is
appended for it and cart, total and handoff flag are unchanged. -/
theorem C10_unrecognized_request_skipped (ps : ℚ → String) (menu : List MenuItem)
    (tc : ToolCall) (rest : List ToolCall) (cart : List CartLine) (total : ℚ) (ho : Bool)
    (s : AgentState)
    (h1 : tc.tname ≠ "request_human_handoff") (h2 : tc.tname ≠ "search_menu")
    (h3 : tc.tname ≠ "add_to_cart") :
    execCalls ps menu (tc :: rest) cart total ho = execCalls ps menu rest cart total ho ∧
    (execute_tools ps menu (call_model (Msg.ai "" [tc]) s)).messages =
      s.messages ++ [Msg.ai "" [tc]] ∧
    (execute_tools ps menu (call_model (Msg.ai "" [tc]) s)).cart = s.cart ∧
    (execute_tools ps menu (call_model (Msg.ai "" [tc]) s)).order_total = s.order_total ∧
    (execute_tools ps menu (call_model (Msg.ai "" [tc]) s)).requires_handoff =
      s.requires_handoff := by
  constructor
  · simp only [execCalls, if_neg h1, if_neg h2, if_neg h3]
  · have hl := lastMsg_call_model (Msg.ai "" [tc]) s
    simp only [execute_tools, hl, toolCallsOf]
    simp [execCalls, h1, h2, h3, call_model]

/-- C10 witness: a concrete unrecognized request is dropped. -/
theorem C10_unrecognized_request_skipped_witness :
    execCalls demoShow demoMenu [⟨"cancel_order", "7", "", "", 0, ""⟩] [] 0 false =
      execCalls demoShow demoMenu [] [] 0 false ∧
    (execute_tools demoShow demoMenu
        (call_model (Msg.ai "" [⟨"cancel_order", "7", "", "", 0, ""⟩])
          ⟨[], [], 0, false⟩)).messages =
      (⟨[], [], 0, false⟩ : AgentState).messages ++
        [Msg.ai "" [⟨"cancel_order", "7", "", "", 0, ""⟩]] ∧
    (execute_tools demoShow demoMenu
        (call_model (Msg.ai "" [⟨"cancel_order", "7", "", "", 0, ""⟩])
          ⟨[], [], 0, false⟩)).cart = (⟨[], [], 0, false⟩ : AgentState).cart ∧
    (execute_tools demoShow demoMenu
        (call_model (Msg.ai "" [⟨"cancel_order", "7", "", "", 0, ""⟩])
          ⟨[], [], 0, false⟩)).order_total = (⟨[], [], 0, false⟩ : AgentState).order_total ∧
    (execute_tools demoShow demoMenu
        (call_model (Msg.ai "" [⟨"cancel_order", "7", "", "", 0, ""⟩])
          ⟨[], [], 0, false⟩)).requires_handoff =
      (⟨[], [], 0, false⟩ : AgentState).requires_handoff :=
  C10_unrecognized_request_skipped demoShow demoMenu ⟨"cancel_order", "7", "", "", 0, ""⟩ []
    [] 0 false ⟨[], [], 0, false⟩ (by decide) (by decide) (by decide)
